import Mathlib

/-!
Verification of the trust and key-lifecycle core of the Cloudflare Access
training-evaluation worker. The JavaScript sources are shallowly embedded:

* JSON values exchanged over the wire become the inductive `Json`
  (integer-valued numbers only; nothing in this worker produces fractions);
* `src/utils/encoding.js` (base64url, asciiToUint8Array) is embedded over
  `List Nat` byte strings, with the platform `btoa`/`atob` pair modelled by
  the standard base64 alphabet and the WHATWG forgiving decode;
* `src/auth/keys.js` (key generation, KV storage, signing-key load, the
  remote certs fetch, JWT parse/verify/sign) is embedded with the platform
  crypto primitives (`crypto.subtle` sign/verify/digest/importKey) supplied
  as explicit function parameters inside `WorkerEnv`;
* `src/auth/evaluation.js` and the POST orchestration handler of
  `src/handlers` are embedded as `Except String`-valued pipelines, a thrown
  JavaScript error being modelled by its textual description.
-/

/-- A JSON value as exchanged by the worker. Numbers are restricted to
integers: every number this worker reads or writes (`exp`, `iat`) is an
epoch-second integer. Object member order is insertion order, as in JS. -/
inductive Json where
  | null
  | bool (b : Bool)
  | num (n : Int)
  | str (text : String)
  | arr (items : List Json)
  | obj (fields : List (String × Json))

/-- JS property read `j[k]` on a parsed-JSON value: a lookup on objects,
`undefined` (here `none`) on everything else. -/
def Json.get (j : Json) (k : String) : Option Json :=
  match j with
  | .obj members => members.lookup k
  | _ => none

/-- Assign into an association list the way JS property assignment does:
an existing key keeps its position and gets the new value, a new key is
appended at the end. -/
def setAssoc (members : List (String × Json)) (k : String) (v : Json) :
    List (String × Json) :=
  match members with
  | [] => [(k, v)]
  | (k₀, v₀) :: rest =>
    if k₀ = k then (k, v) :: rest else (k₀, v₀) :: setAssoc rest k v

/-- JS property assignment `j[k] = v` on an object; other values are left
unchanged (assignment onto a primitive is silently dropped). -/
def Json.set (j : Json) (k : String) (v : Json) : Json :=
  match j with
  | .obj members => .obj (setAssoc members k v)
  | other => other

/-- JS truthiness of a parsed-JSON value. -/
def Json.truthy (j : Json) : Bool :=
  match j with
  | .null => false
  | .bool b => b
  | .num n => n != 0
  | .str s => s ≠ ""
  | .arr _ => true
  | .obj _ => true

/-- Left brace character, written via its code point. -/
def lbrace : Char := Char.ofNat 123

/-- Right brace character, written via its code point. -/
def rbrace : Char := Char.ofNat 125

/-- JSON.stringify escaping for one character inside a string literal. -/
def escapeChar (c : Char) : List Char :=
  if c = '"' then ['\\', '"']
  else if c = '\\' then ['\\', '\\']
  else if c = Char.ofNat 8 then ['\\', 'b']
  else if c = Char.ofNat 12 then ['\\', 'f']
  else if c = Char.ofNat 10 then ['\\', 'n']
  else if c = Char.ofNat 13 then ['\\', 'r']
  else if c = Char.ofNat 9 then ['\\', 't']
  else if c.toNat < 32 then
    ['\\', 'u', '0', '0', Nat.digitChar (c.toNat / 16), Nat.digitChar (c.toNat % 16)]
  else [c]

/-- Decimal rendering of an integer, as JS number-to-string for integers. -/
def intChars (n : Int) : List Char :=
  if n < 0 then '-' :: Nat.toDigits 10 n.natAbs else Nat.toDigits 10 n.toNat

/-- Serialization of a JSON string literal: quote, escape, quote. -/
def strLitChars (s : String) : List Char :=
  '"' :: (s.toList.map escapeChar).flatten ++ ['"']

mutual

/-- JSON.stringify, producing the character list of the compact (no added
whitespace) serialization. -/
def stringifyChars : Json → List Char
  | .null => "null".toList
  | .bool true => "true".toList
  | .bool false => "false".toList
  | .num n => intChars n
  | .str s => strLitChars s
  | .arr elems => '[' :: stringifyArr elems ++ [']']
  | .obj members => lbrace :: stringifyObj members ++ [rbrace]

/-- Comma-separated serialization of array elements. -/
def stringifyArr : List Json → List Char
  | [] => []
  | [e] => stringifyChars e
  | e :: es => stringifyChars e ++ ',' :: stringifyArr es

/-- Comma-separated serialization of object members. -/
def stringifyObj : List (String × Json) → List Char
  | [] => []
  | [(k, v)] => strLitChars k ++ ':' :: stringifyChars v
  | (k, v) :: ms => strLitChars k ++ ':' :: stringifyChars v ++ ',' :: stringifyObj ms

end

/-- JSON.stringify of a value, as a string. -/
def jsonStringify (j : Json) : String :=
  String.mk (stringifyChars j)

/-- The whitespace characters JSON.parse skips between tokens. -/
def isJsonWs (c : Char) : Bool :=
  c = ' ' || c = Char.ofNat 9 || c = Char.ofNat 10 || c = Char.ofNat 13

/-- Skip JSON inter-token whitespace. -/
def skipWs (cs : List Char) : List Char := cs.dropWhile isJsonWs

/-- One decimal digit, by code point. -/
def isDigitCh (c : Char) : Bool := 48 ≤ c.toNat && c.toNat ≤ 57

/-- Longest digit prefix and the remainder. -/
def takeDigits (cs : List Char) : List Char × List Char :=
  (cs.takeWhile isDigitCh, cs.dropWhile isDigitCh)

/-- Numeric value of a digit list. -/
def digitsVal (ds : List Char) : Nat :=
  ds.foldl (fun acc c => 10 * acc + (c.toNat - 48)) 0

/-- Value of one hexadecimal digit, by code point ranges: decimal digits,
then lowercase `a`-`f`, then uppercase `A`-`F`. -/
def hexVal (c : Char) : Option Nat :=
  let n := c.toNat
  if 48 ≤ n ∧ n ≤ 57 then some (n - 48)
  else if 97 ≤ n ∧ n ≤ 102 then some (n - 87)
  else if 65 ≤ n ∧ n ≤ 70 then some (n - 55)
  else none

/-- Parse the body of a JSON string literal after the opening quote; returns
the decoded characters and the remainder after the closing quote. Fuelled
for totality. -/
def parseStrBody : Nat → List Char → Option (List Char × List Char)
  | 0, _ => none
  | _, [] => none
  | fuel + 1, c :: cs =>
    if c = '"' then some ([], cs)
    else if c = '\\' then
      match cs with
      | [] => none
      | e :: cs' =>
        let decoded : Option (Char × List Char) :=
          if e = '"' then some ('"', cs')
          else if e = '\\' then some ('\\', cs')
          else if e = '/' then some ('/', cs')
          else if e = 'b' then some (Char.ofNat 8, cs')
          else if e = 'f' then some (Char.ofNat 12, cs')
          else if e = 'n' then some (Char.ofNat 10, cs')
          else if e = 'r' then some (Char.ofNat 13, cs')
          else if e = 't' then some (Char.ofNat 9, cs')
          else if e = 'u' then
            match cs' with
            | h1 :: h2 :: h3 :: h4 :: rest =>
              match hexVal h1, hexVal h2, hexVal h3, hexVal h4 with
              | some v1, some v2, some v3, some v4 =>
                let n := ((v1 * 16 + v2) * 16 + v3) * 16 + v4
                -- lone surrogate escapes are rejected rather than paired;
                -- nothing in this worker emits them
                if n.isValidChar then some (Char.ofNat n, rest) else none
              | _, _, _, _ => none
            | _ => none
          else none
        match decoded with
        | some (d, rest) =>
          match parseStrBody fuel rest with
          | some (tail, rem) => some (d :: tail, rem)
          | none => none
        | none => none
    else
      match parseStrBody fuel cs with
      | some (tail, rem) => some (c :: tail, rem)
      | none => none

/-- Recognize a keyword tail such as `ull` after the dispatching first
character, returning the remainder. -/
def matchKw (lit cs : List Char) : Option (List Char) :=
  if lit.isPrefixOf cs then some (cs.drop lit.length) else none

mutual

/-- Recursive-descent JSON value parse (fuelled). Mirrors JSON.parse on the
integer-numbered subset: fraction and exponent forms are rejected, which
nothing in this worker ever produces. Dispatches on the first non-blank
character. -/
def parseVal : Nat → List Char → Option (Json × List Char)
  | 0, _ => none
  | fuel + 1, cs =>
    match skipWs cs with
    | [] => none
    | c :: rest =>
      if c = '"' then
        match parseStrBody (rest.length + 1) rest with
        | some (body, rem) => some (.str (String.mk body), rem)
        | none => none
      else if c = '[' then
        match skipWs rest with
        | ']' :: rem => some (.arr [], rem)
        | other =>
          match parseElems fuel other with
          | some (elems, rem) => some (.arr elems, rem)
          | none => none
      else if c = lbrace then
        match skipWs rest with
        | [] => none
        | d :: rem' =>
          if d = rbrace then some (.obj [], rem')
          else
            match parseMembers fuel (d :: rem') with
            | some (members, rem) => some (.obj members, rem)
            | none => none
      else if c = '-' then
        match takeDigits rest with
        | ([], _) => none
        | (ds, rem) => some (.num (-(digitsVal ds : Int)), rem)
      else if isDigitCh c then
        match takeDigits (c :: rest) with
        | ([], _) => none
        | (ds, rem) => some (.num (digitsVal ds : Int), rem)
      else if c = 'n' then
        match matchKw "ull".toList rest with
        | some rem => some (.null, rem)
        | none => none
      else if c = 't' then
        match matchKw "rue".toList rest with
        | some rem => some (.bool true, rem)
        | none => none
      else if c = 'f' then
        match matchKw "alse".toList rest with
        | some rem => some (.bool false, rem)
        | none => none
      else none

/-- Parse one-or-more comma-separated array elements, then the closing
bracket. -/
def parseElems : Nat → List Char → Option (List Json × List Char)
  | 0, _ => none
  | fuel + 1, cs =>
    match parseVal fuel cs with
    | none => none
    | some (v, rest) =>
      match skipWs rest with
      | ']' :: rem => some ([v], rem)
      | ',' :: rest' =>
        match parseElems fuel rest' with
        | some (vs, rem) => some (v :: vs, rem)
        | none => none
      | _ => none

/-- Parse one-or-more comma-separated object members, then the closing
brace. -/
def parseMembers : Nat → List Char → Option (List (String × Json) × List Char)
  | 0, _ => none
  | fuel + 1, cs =>
    match skipWs cs with
    | '"' :: rest =>
      (match parseStrBody (rest.length + 1) rest with
       | none => none
       | some (key, afterKey) =>
         match skipWs afterKey with
         | ':' :: afterColon =>
           (match parseVal fuel afterColon with
            | none => none
            | some (v, rest') =>
              match skipWs rest' with
              | [] => none
              | d :: rem =>
                if d = rbrace then some ([(String.mk key, v)], rem)
                else if d = ',' then
                  match parseMembers fuel rem with
                  | some (ms, more) => some ((String.mk key, v) :: ms, more)
                  | none => none
                else none)
         | _ => none)
    | _ => none

end

/-- JSON.parse: parse one value and require only whitespace to remain. -/
def jsonParse (s : String) : Option Json :=
  match parseVal (s.length + 1) s.toList with
  | some (j, rest) => if skipWs rest = [] then some j else none
  | none => none

/-! ## `src/utils/encoding.js` and the platform text/base64 primitives -/

/-- JS `String.prototype.split` with a single-character separator, on
character lists: empty segments are preserved and the result is always
non-empty. -/
def splitChars (sep : Char) : List Char → List (List Char)
  | [] => [[]]
  | c :: rest =>
    match splitChars sep rest with
    | [] => [[]]
    | seg :: segs => if c = sep then [] :: seg :: segs else (c :: seg) :: segs

/-- JS `s.split(sep)` on strings. -/
def splitOnChar (sep : Char) (s : String) : List String :=
  (splitChars sep s.toList).map String.mk

/-- `asciiToUint8Array` from `src/utils/encoding.js`: `charCodeAt` of every
position. `charCodeAt` yields UTF-16 code units; this model agrees with it
on strings of characters below `0x10000`, which covers every string this
worker feeds it (ASCII JSON and base64url text). -/
def asciiToUint8Array (s : String) : List Nat :=
  s.toList.map Char.toNat

/-- `TextDecoder('utf-8').decode`, restricted to the ASCII range: bytes
below 128 decode to themselves and anything else becomes U+FFFD. Every
byte string this worker decodes is ASCII JSON. -/
def textDecode (bs : List Nat) : String :=
  String.mk (bs.map fun b => if b < 128 then Char.ofNat b else Char.ofNat 0xFFFD)

/-- `TextEncoder().encode` of one character (UTF-8). -/
def utf8EncodeChar (c : Char) : List Nat :=
  let n := c.toNat
  if n < 0x80 then [n]
  else if n < 0x800 then [0xC0 + n / 64, 0x80 + n % 64]
  else if n < 0x10000 then [0xE0 + n / 4096, 0x80 + n / 64 % 64, 0x80 + n % 64]
  else [0xF0 + n / 262144, 0x80 + n / 4096 % 64, 0x80 + n / 64 % 64, 0x80 + n % 64]

/-- `TextEncoder().encode` of a string (UTF-8 bytes). -/
def utf8Encode (s : String) : List Nat :=
  (s.toList.map utf8EncodeChar).flatten

/-- The standard base64 alphabet used by `btoa`/`atob`. -/
def b64chars : List Char :=
  "ABCDEFGHIJKLMNOPQRSTUVWXYZabcdefghijklmnopqrstuvwxyz0123456789+/".toList

/-- Character for a 6-bit group. -/
def encChar (n : Nat) : Char := b64chars.getD n 'A'

/-- 6-bit value of a base64 character; `none` on anything outside the
alphabet, where `atob` throws. -/
def decChar (c : Char) : Option Nat := b64chars.findIdx? (· = c)

/-- `btoa` with the padding already stripped, as `base64url.stringify`
strips every `=` from the result: 3-byte groups become 4 characters and a
1- or 2-byte tail becomes 2 or 3 characters. Defined for byte values below
256 (`btoa` throws beyond Latin-1; nothing in this worker reaches that). -/
def b64EncodeBytes : List Nat → List Char
  | [] => []
  | [b1] => [encChar (b1 / 4), encChar (b1 % 4 * 16)]
  | [b1, b2] => [encChar (b1 / 4), encChar (b1 % 4 * 16 + b2 / 16), encChar (b2 % 16 * 4)]
  | b1 :: b2 :: b3 :: rest =>
    encChar (b1 / 4) :: encChar (b1 % 4 * 16 + b2 / 16) ::
      encChar (b2 % 16 * 4 + b3 / 64) :: encChar (b3 % 64) :: b64EncodeBytes rest

/-- `atob` under the WHATWG forgiving-base64 decode on unpadded input:
groups of 4 characters become 3 bytes, a tail of 2 or 3 characters becomes
1 or 2 bytes (leftover bits discarded), a tail of 1 character or any
character outside the alphabet is an error. Explicit `=` padding is
rejected here; the tokens this worker handles are unpadded. -/
def b64DecodeChars : List Char → Option (List Nat)
  | [] => some []
  | [_] => none
  | [c1, c2] =>
    (match decChar c1, decChar c2 with
     | some n1, some n2 => some [n1 * 4 + n2 / 16]
     | _, _ => none)
  | [c1, c2, c3] =>
    (match decChar c1, decChar c2, decChar c3 with
     | some n1, some n2, some n3 => some [n1 * 4 + n2 / 16, n2 % 16 * 16 + n3 / 4]
     | _, _, _ => none)
  | c1 :: c2 :: c3 :: c4 :: rest =>
    (match decChar c1, decChar c2, decChar c3, decChar c4, b64DecodeChars rest with
     | some n1, some n2, some n3, some n4, some tail =>
       some ((n1 * 4 + n2 / 16) :: (n2 % 16 * 16 + n3 / 4) :: (n3 % 4 * 64 + n4) :: tail)
     | _, _, _, _, _ => none)

/-- The URL-safe substitution of `base64url.stringify`: `+` to `-` and `/`
to `_`. -/
def toUrlChar (c : Char) : Char :=
  if c = '+' then '-' else if c = '/' then '_' else c

/-- The inverse substitution of `base64url.parse`: `-` to `+` and `_` to
`/`. -/
def fromUrlChar (c : Char) : Char :=
  if c = '-' then '+' else if c = '_' then '/' else c

/-- The main whitespace class of the `\s` removal in `base64url.parse`. -/
def isWsJs (c : Char) : Bool :=
  c = ' ' || c = Char.ofNat 9 || c = Char.ofNat 10 || c = Char.ofNat 13 ||
    c = Char.ofNat 11 || c = Char.ofNat 12

/-- `base64url.stringify` from `src/utils/encoding.js`: `btoa`, strip `=`,
substitute the URL-safe characters. -/
def base64urlStringify (bs : List Nat) : String :=
  String.mk ((b64EncodeBytes bs).map toUrlChar)

/-- `base64url.parse` from `src/utils/encoding.js`: undo the URL-safe
substitution, strip whitespace, `atob`, and read the character codes.
`none` models the `InvalidCharacterError` thrown by `atob`. -/
def base64urlParse (s : String) : Option (List Nat) :=
  b64DecodeChars (((s.toList.map fromUrlChar).filter fun c => !isWsJs c))

/-! ## `src/auth/keys.js`: key lifecycle and JWT processing -/

/-- The KV record stored under `external_auth_keys`: the exported public
JWK (as its JSON text), the exported private JWK when present (the source
always writes it; the field is optional so that records written without it
can be compared), and the derived key id. -/
structure StoredKeys where
  public : String
  «private» : Option String
  kid : String
deriving DecidableEq

/-- An imported verification key: `crypto.subtle.verify` with this key,
applied to signature bytes and message bytes. -/
def VerifyKey : Type := List Nat → List Nat → Bool

/-- An imported signing key: `crypto.subtle.sign` with this key, applied
to message bytes, together with the JSON text of the public JWK it
corresponds to (through which its key id is derived). -/
structure SigningKey where
  sign : List Nat → List Nat
  pubJwk : String

/-- A freshly generated RSA key pair, as the pair of exported JWK JSON
texts (`crypto.subtle.generateKey` followed by `exportKey`). -/
structure KeyPair where
  publicJwk : String
  privateJwk : String

/-- The worker environment: the KV binding, the secret, the D1 database,
and the platform primitives this code calls. `sha1` models
`crypto.subtle.digest('SHA-1', ·)` (always 20 bytes of output);
`importPrivateKey` models `JSON.parse` plus `crypto.subtle.importKey` of
the `RSA_PRIVATE_KEY` secret, `none` being a parse or import failure;
`certs` is the body of a successful `GET /cdn-cgi/access/certs` as a
kid-indexed list of imported verification keys, `none` a failed fetch;
`db` is `SELECT training_status FROM users WHERE username = ?`. -/
structure WorkerEnv where
  keyStorage : Option StoredKeys
  rsaPrivateKey : Option String
  sha1 : List Nat → List Nat
  importPrivateKey : String → Option SigningKey
  certs : Option (List (String × VerifyKey))
  db : String → Option String

/-- `generateKID`: hex digest of the SHA-1 hash of the public-key JSON,
truncated by `substring(0, 64)`. Each byte renders as
`b.toString(16).padStart(2, '0')`, which for the byte range is exactly two
lowercase hex digits. -/
def generateKID (sha1 : List Nat → List Nat) (publicKey : String) : String :=
  let hashArray := sha1 (utf8Encode publicKey)
  let hashHex := (hashArray.map fun b => [Nat.digitChar (b / 16), Nat.digitChar (b % 16)]).flatten
  String.mk (hashHex.take 64)

/-- The result object of `generateKeys` (the `keypair` handle itself is
dropped; the callers use only these three fields). -/
structure GeneratedKeys where
  publicKey : String
  privateKey : String
  kid : String

/-- `generateKeys`: derive the kid from the exported public JWK and write
`{ public, private, kid }` to KV under `external_auth_keys`; the freshly
generated pair is a parameter standing for `crypto.subtle.generateKey`.
Returns the updated environment alongside the result. -/
def generateKeys (env : WorkerEnv) (keypair : KeyPair) : WorkerEnv × GeneratedKeys :=
  let kid := generateKID env.sha1 keypair.publicJwk
  let stored : StoredKeys :=
    { public := keypair.publicJwk, «private» := some keypair.privateJwk, kid := kid }
  ({ env with keyStorage := some stored },
   { publicKey := keypair.publicJwk, privateKey := keypair.privateJwk, kid := kid })

/-- The value `loadPublicKey` returns: `{ kid: key.kid, ...key.public }`,
the kid merged with the fields of the stored public JWK and nothing else. -/
structure PublicKeyView where
  kid : String
  publicJwk : String
deriving DecidableEq

/-- `loadPublicKey`: return the stored kid and public JWK if the KV record
exists, otherwise generate and store a fresh key set first. -/
def loadPublicKey (env : WorkerEnv) (freshKeypair : KeyPair) : WorkerEnv × PublicKeyView :=
  match env.keyStorage with
  | some key => (env, { kid := key.kid, publicJwk := key.public })
  | none =>
    let (env', gen) := generateKeys env freshKeypair
    (env', { kid := gen.kid, publicJwk := gen.publicKey })

/-- `handleKeysRequest`: HTTP 200 with body `{ keys: [loadPublicKey(env)] }`. -/
def handleKeysRequest (env : WorkerEnv) (freshKeypair : KeyPair) :
    WorkerEnv × Nat × List PublicKeyView :=
  let (env', keys) := loadPublicKey env freshKeypair
  (env', 200, [keys])

/-- `loadSigningKey`: read the KV record for the kid, read the
`RSA_PRIVATE_KEY` secret, parse and import it, and return the stored kid
paired with the imported private key. Thrown errors carry their
`toString` text. -/
def loadSigningKey (env : WorkerEnv) : Except String (String × SigningKey) :=
  match env.keyStorage with
  | none => .error "Error: cannot find signing key"
  | some publicKeyset =>
    match env.rsaPrivateKey with
    | none => .error "Error: RSA_PRIVATE_KEY secret not set"
    | some privateKeyJWK =>
      match env.importPrivateKey privateKeyJWK with
      | none => .error "Error: invalid RSA_PRIVATE_KEY secret format"
      | some signingKey => .ok (publicKeyset.kid, signingKey)

/-- The stored kid of a successful `loadSigningKey`. -/
def loadSigningKeyKid (env : WorkerEnv) : Option String :=
  (loadSigningKey env).toOption.map (·.1)

/-- The kid derived from the private key a successful `loadSigningKey`
returns, via the public JWK that key corresponds to. -/
def loadSigningKeyDerivedKid (env : WorkerEnv) : Option String :=
  (loadSigningKey env).toOption.map fun p => generateKID env.sha1 p.2.pubJwk

/-- `parseJWT`: a parsed token. `to_be_validated` is the first two
segments rejoined with a dot, `signature` the third segment verbatim. -/
structure ParsedJWT where
  to_be_validated : String
  header : Json
  payload : Json
  signature : String

/-- `parseJWT`: split on `.`, require exactly three segments, base64url-
decode and UTF-8-decode and JSON-parse the first two. `none` branches of
the decoders model the corresponding thrown platform errors. -/
def parseJWT (token : String) : Except String ParsedJWT :=
  match splitOnChar '.' token with
  | [p0, p1, p2] =>
    (match base64urlParse p0 with
     | none => .error "InvalidCharacterError: invalid base64 in header"
     | some headerBytes =>
       match jsonParse (textDecode headerBytes) with
       | none => .error "SyntaxError: unexpected token in JSON header"
       | some header =>
         match base64urlParse p1 with
         | none => .error "InvalidCharacterError: invalid base64 in payload"
         | some payloadBytes =>
           match jsonParse (textDecode payloadBytes) with
           | none => .error "SyntaxError: unexpected token in JSON payload"
           | some payload =>
             .ok { to_be_validated := p0 ++ "." ++ p1,
                   header := header, payload := payload, signature := p2 })
  | _ => .error "Error: token must have 3 parts"

/-- `fetchAccessPublicKey`: one `fetch` of the certs endpoint, then select
the first key whose `kid` equals the token header's `kid`, then import
it. A failed fetch and a missing match both surface as thrown errors (the
latter because `importKey(undefined)` throws). The keys arrive already
imported in this model; the loose `==` of the source is string equality
here, certs kids being strings: `kidMatches` is that comparison, a
non-string header kid matching nothing. -/
def kidMatches (certKid : String) (headerKid : Option Json) : Bool :=
  match headerKid with
  | some (.str s) => certKid = s
  | _ => false

/-- The fetch-filter-import body: `fetch`, then
`keys.keys.filter(key => key.kid == kid)[0]`, then `importKey`. -/
def fetchAccessPublicKey (env : WorkerEnv) (kid : Option Json) : Except String VerifyKey :=
  match env.certs with
  | none => .error "TypeError: Failed to fetch"
  | some keys =>
    match (keys.filter fun k => kidMatches k.1 kid).head? with
    | some k => .ok k.2
    | none => .error "TypeError: cannot import key for unknown kid"

/-- The outbound-fetch-counting refinement of `fetchAccessPublicKey`: the
first statement of the source function is an unconditional `await fetch`,
so every invocation adds one outbound network call to the trace. -/
def fetchAccessPublicKeyTraced (env : WorkerEnv) (kid : Option Json) (fetchCount : Nat) :
    Except String VerifyKey × Nat :=
  (fetchAccessPublicKey env kid, fetchCount + 1)

/-- The `claims.exp < now` test of `verifyToken`: a numeric `exp` compares
numerically; an absent or non-numeric `exp` compares as `NaN`, which is
never `<` (string-to-number coercion is not modelled; no caller supplies a
numeric string here). -/
def expiredBefore (exp : Option Json) (now : Int) : Bool :=
  match exp with
  | some (.num e) => e < now
  | _ => false

/-- `verifyToken`: parse, resolve the verification key by the header kid,
check the signature over the ASCII bytes of the first two segments, then
fail on `claims.exp < now`, and return the payload claims. -/
def verifyToken (env : WorkerEnv) (token : String) (now : Int) : Except String Json :=
  match parseJWT token with
  | .error e => .error e
  | .ok jwt =>
    match fetchAccessPublicKey env (jwt.header.get "kid") with
    | .error e => .error e
    | .ok key =>
      match base64urlParse jwt.signature with
      | none => .error "InvalidCharacterError: invalid base64 in signature"
      | some sigBytes =>
        let verified := key sigBytes (asciiToUint8Array jwt.to_be_validated)
        if !verified then .error "Error: failed to verify token"
        else
          let claims := jwt.payload
          if expiredBefore (claims.get "exp") now then .error "Error: expired token"
          else .ok claims

/-- The JWT header `signJWT` builds for the current kid. -/
def jwtHeader (kid : String) : Json :=
  .obj [("alg", .str "RS256"), ("kid", .str kid)]

/-- `signJWT`: load the signing key, base64url-encode the serialized
header and payload, sign the ASCII bytes of their dot-joined form, and
append the base64url-encoded signature. -/
def signJWT (env : WorkerEnv) (payload : Json) : Except String String :=
  match loadSigningKey env with
  | .error e => .error e
  | .ok (kid, signingKey) =>
    let encHeader := base64urlStringify (asciiToUint8Array (jsonStringify (jwtHeader kid)))
    let encPayload := base64urlStringify (asciiToUint8Array (jsonStringify payload))
    let encoded := encHeader ++ "." ++ encPayload
    let sig := signingKey.sign (asciiToUint8Array encoded)
    .ok (encoded ++ "." ++ base64urlStringify sig)

/-! ## `src/utils/cache.js`: the in-memory cache utilities -/

/-- One entry of `CACHE_CONFIG`. -/
structure CacheEntryConfig where
  key : String
  ttl : Nat
deriving DecidableEq

/-- `CACHE_CONFIG` from `src/utils/cache.js`. -/
structure CacheConfig where
  ACCESS_KEYS : CacheEntryConfig
  OKTA_USERS : CacheEntryConfig
  OKTA_GROUPS : CacheEntryConfig

/-- The configured cache keys and TTLs (seconds). -/
def CACHE_CONFIG : CacheConfig :=
  { ACCESS_KEYS := { key := "access_public_keys", ttl := 300 }
    OKTA_USERS := { key := "okta_users", ttl := 600 }
    OKTA_GROUPS := { key := "okta_groups", ttl := 1800 } }

/-- The in-memory `memoryCache` map: key to value and expiry (epoch ms). -/
def CacheState : Type := List (String × (Json × Int))

/-- `getCached`: a present, unexpired entry is returned; an expired entry
is deleted and reported missing. -/
def getCached (nowMs : Int) (cache : CacheState) (key : String) :
    Option Json × CacheState :=
  match cache.lookup key with
  | none => (none, cache)
  | some (v, expires) =>
    if nowMs > expires then (none, cache.filter fun e => e.1 ≠ key)
    else (some v, cache)

/-- `setCache`: store a value with expiry `now + ttl` seconds. -/
def setCache (nowMs : Int) (cache : CacheState) (key : String) (v : Json)
    (ttlSeconds : Nat) : CacheState :=
  (key, (v, nowMs + ttlSeconds * 1000)) :: cache.filter fun e => e.1 ≠ key

/-! ## `src/auth/evaluation.js` and the POST orchestration handler -/

/-- The identity key `externalEvaluation` derives:
`email.split('@')[0].toLowerCase()`. -/
def usernameOf (email : String) : String :=
  String.mk (((splitChars '@' email.toList).headD []).map Char.toLower)

/-- `externalEvaluation`: derive the username from `claims.identity.email`,
query the training-status store, deny on a missing row, and grant exactly
on the status string `completed`. Reading `.email` off an absent
`identity`, or calling `.split` on a non-string, throws. A `null` store
result and an empty-string status are both falsy in the source; the model
returns the same decision for either. -/
def externalEvaluation (env : WorkerEnv) (claims : Json) : Except String Bool :=
  match claims.get "identity" with
  | none => .error "TypeError: Cannot read properties of undefined (reading 'email')"
  | some identity =>
    match identity.get "email" with
    | some (.str email) =>
      let username := usernameOf email
      match env.db username with
      | none => .ok false
      | some trainingStatus => .ok (trainingStatus = "completed")
    | _ => .error "TypeError: email.split is not a function"

/-- The initial `result` object of the POST handler:
`{ success: false, iat: now, exp: now + 300 }`. -/
def initResult (now : Int) : Json :=
  .obj [("success", .bool false), ("iat", .num now), ("exp", .num (now + 300))]

/-- `result.nonce = claims.nonce`: set when the inbound claims carry a
nonce; an absent nonce writes `undefined`, which `JSON.stringify` then
omits, so the model leaves the object unchanged. -/
def withNonce (result claims : Json) : Json :=
  match claims.get "nonce" with
  | some v => result.set "nonce" v
  | none => result

/-- `if (await externalEvaluation(...)) result.success = true`. -/
def withSuccess (result : Json) (granted : Bool) : Json :=
  if granted then result.set "success" (.bool true) else result

/-- The outbound decision payload the handler builds for truthy claims:
initial result, then the echoed nonce, then the evaluated decision. -/
def buildEvalResult (now : Int) (claims : Json) (granted : Bool) : Json :=
  withSuccess (withNonce (initResult now) claims) granted

/-- JS `body.token` followed by `verifyToken(env, body.token)`: a missing
or non-string `token` property makes `token.split` inside `parseJWT`
throw. -/
def getTokenField (body : Json) : Except String String :=
  match body.get "token" with
  | some (.str t) => .ok t
  | _ => .error "TypeError: token.split is not a function"

/-- The try-block of the POST branch of `handleExternalEvaluationRequest`:
read the body, verify the token, evaluate truthy claims and build the
decision payload (skipping both for falsy claims), and sign it. -/
def evalPipeline (env : WorkerEnv) (reqBody : Except String Json) (now : Int) :
    Except String String :=
  match reqBody with
  | .error e => .error e
  | .ok body =>
    match getTokenField body with
    | .error e => .error e
    | .ok token =>
      match verifyToken env token now with
      | .error e => .error e
      | .ok claims =>
        if claims.truthy then
          match externalEvaluation env claims with
          | .error e => .error e
          | .ok granted => signJWT env (buildEvalResult now claims granted)
        else signJWT env (initResult now)

/-- An HTTP response: status code and JSON body. -/
structure HttpResponse where
  status : Nat
  body : Json

/-- The catch-branch response: HTTP 403 with
`{ success: false, error: e.toString(), stack: e.stack }` (the `stack`
field is modelled by the error text). -/
def errorResponse (e : String) : HttpResponse :=
  { status := 403,
    body := .obj [("success", .bool false), ("error", .str e), ("stack", .str e)] }

/-- The POST branch of `handleExternalEvaluationRequest`: HTTP 200 with
`{ token }` when the pipeline succeeds, the 403 error response when any
step throws (`reqBody` is the outcome of `request.json()`, `now` is
`Math.round(Date.now() / 1000)`). -/
def handleExternalEvaluationRequest (env : WorkerEnv) (reqBody : Except String Json)
    (now : Int) : HttpResponse :=
  match evalPipeline env reqBody now with
  | .ok jwt => { status := 200, body := .obj [("token", .str jwt)] }
  | .error e => errorResponse e

/-! ## Shared lemmas: base64url round trip, splitting, ASCII decoding -/

theorem decChar_encChar : ∀ n : Nat, n < 64 → decChar (encChar n) = some n := by decide

theorem b64chars_length : b64chars.length = 64 := by decide

theorem encChar_out_of_range (n : Nat) (h : 64 ≤ n) : encChar n = 'A' := by
  unfold encChar
  exact List.getD_eq_default _ _ (b64chars_length ▸ h)

theorem encChar_small_stable : ∀ n : Nat, n < 64 →
    (fromUrlChar (toUrlChar (encChar n)) = encChar n ∧ isWsJs (encChar n) = false ∧
      toUrlChar (encChar n) ≠ '.') := by decide

theorem encChar_stable (n : Nat) :
    fromUrlChar (toUrlChar (encChar n)) = encChar n ∧ isWsJs (encChar n) = false ∧
      toUrlChar (encChar n) ≠ '.' := by
  rcases Nat.lt_or_ge n 64 with h | h
  · exact encChar_small_stable n h
  · rw [encChar_out_of_range n h]
    refine ⟨rfl, rfl, ?_⟩
    decide

theorem mem_b64EncodeBytes : ∀ (bs : List Nat), ∀ c ∈ b64EncodeBytes bs, ∃ m, c = encChar m
  | [], _, h => absurd h (by simp [b64EncodeBytes])
  | [b1], c, h => by
    simp only [b64EncodeBytes, List.mem_cons, List.mem_singleton, List.not_mem_nil,
      or_false] at h
    rcases h with h | h <;> exact ⟨_, h⟩
  | [b1, b2], c, h => by
    simp only [b64EncodeBytes, List.mem_cons, List.not_mem_nil, or_false] at h
    rcases h with h | h | h <;> exact ⟨_, h⟩
  | b1 :: b2 :: b3 :: rest, c, h => by
    simp only [b64EncodeBytes, List.mem_cons] at h
    rcases h with h | h | h | h | h
    · exact ⟨_, h⟩
    · exact ⟨_, h⟩
    · exact ⟨_, h⟩
    · exact ⟨_, h⟩
    · exact mem_b64EncodeBytes rest c h

theorem processed_b64EncodeBytes (bs : List Nat) :
    (((b64EncodeBytes bs).map toUrlChar).map fromUrlChar).filter (fun c => !isWsJs c) =
      b64EncodeBytes bs := by
  rw [List.map_map]
  have hmap : (b64EncodeBytes bs).map (fromUrlChar ∘ toUrlChar) = b64EncodeBytes bs := by
    have hcongr : ∀ c ∈ b64EncodeBytes bs, (fromUrlChar ∘ toUrlChar) c = id c := by
      intro c hc
      obtain ⟨m, hm⟩ := mem_b64EncodeBytes bs c hc
      subst hm
      exact (encChar_stable m).1
    rw [List.map_congr_left hcongr, List.map_id]
  rw [hmap]
  rw [List.filter_eq_self.mpr]
  intro c hc
  obtain ⟨m, hm⟩ := mem_b64EncodeBytes bs c hc
  subst hm
  simp only [Bool.not_eq_true']
  exact (encChar_stable m).2.1

theorem b64DecodeChars_encode : ∀ (bs : List Nat), (∀ b ∈ bs, b < 256) →
    b64DecodeChars (b64EncodeBytes bs) = some bs
  | [], _ => rfl
  | [b1], h => by
    have hb1 : b1 < 256 := h b1 (by simp)
    simp only [b64EncodeBytes, b64DecodeChars]
    rw [decChar_encChar _ (by omega), decChar_encChar _ (by omega)]
    simp only [Option.some.injEq, List.cons.injEq, and_true]
    omega
  | [b1, b2], h => by
    have hb1 : b1 < 256 := h b1 (by simp)
    have hb2 : b2 < 256 := h b2 (by simp)
    simp only [b64EncodeBytes, b64DecodeChars]
    rw [decChar_encChar _ (by omega), decChar_encChar _ (by omega),
      decChar_encChar _ (by omega)]
    simp only [Option.some.injEq, List.cons.injEq, and_true]
    constructor <;> omega
  | b1 :: b2 :: b3 :: rest, h => by
    have hb1 : b1 < 256 := h b1 (by simp)
    have hb2 : b2 < 256 := h b2 (by simp)
    have hb3 : b3 < 256 := h b3 (by simp)
    have ih := b64DecodeChars_encode rest (fun b hb => h b (by simp [hb]))
    simp only [b64EncodeBytes, b64DecodeChars]
    rw [decChar_encChar _ (by omega), decChar_encChar _ (by omega),
      decChar_encChar _ (by omega), decChar_encChar _ (by omega), ih]
    simp only [Option.some.injEq, List.cons.injEq]
    refine ⟨by omega, by omega, by omega, trivial⟩

theorem b64_roundtrip (bs : List Nat) (h : ∀ b ∈ bs, b < 256) :
    base64urlParse (base64urlStringify bs) = some bs := by
  unfold base64urlParse base64urlStringify
  have htl : (String.mk ((b64EncodeBytes bs).map toUrlChar)).toList =
      (b64EncodeBytes bs).map toUrlChar := rfl
  rw [htl, processed_b64EncodeBytes]
  exact b64DecodeChars_encode bs h

theorem b64stringify_no_dot (bs : List Nat) :
    ∀ c ∈ (base64urlStringify bs).toList, c ≠ '.' := by
  intro c hc
  have : (base64urlStringify bs).toList = (b64EncodeBytes bs).map toUrlChar := rfl
  rw [this] at hc
  obtain ⟨d, hd, rfl⟩ := List.mem_map.mp hc
  obtain ⟨m, rfl⟩ := mem_b64EncodeBytes bs d hd
  exact (encChar_stable m).2.2

theorem splitChars_ne_nil (sep : Char) : ∀ l : List Char, splitChars sep l ≠ []
  | [] => by simp [splitChars]
  | c :: rest => by
    simp only [splitChars]
    match h : splitChars sep rest with
    | [] => exact absurd h (splitChars_ne_nil sep rest)
    | seg :: segs =>
      by_cases hc : c = sep <;> simp [hc]

theorem splitChars_no_sep (sep : Char) : ∀ (a : List Char), sep ∉ a →
    splitChars sep a = [a]
  | [], _ => rfl
  | c :: rest, h => by
    have hrest : splitChars sep rest = [rest] :=
      splitChars_no_sep sep rest (fun hm => h (List.mem_cons_of_mem c hm))
    have hc : c ≠ sep := fun hc => h (hc ▸ List.mem_cons_self c rest)
    simp [splitChars, hrest, hc]

theorem splitChars_append_sep (sep : Char) : ∀ (a l : List Char), sep ∉ a →
    splitChars sep (a ++ sep :: l) = a :: splitChars sep l
  | [], l, _ => by
    simp only [List.nil_append, splitChars]
    match h : splitChars sep l with
    | [] => exact absurd h (splitChars_ne_nil sep l)
    | seg :: segs => simp
  | c :: rest, l, h => by
    have hrest := splitChars_append_sep sep rest l
      (fun hm => h (List.mem_cons_of_mem c hm))
    have hc : c ≠ sep := fun hc => h (hc ▸ List.mem_cons_self c rest)
    rw [List.cons_append]
    simp only [splitChars, List.append_eq]
    rw [hrest]
    simp [hc]

theorem toList_mk (l : List Char) : (String.mk l).toList = l := rfl

theorem mk_toList (s : String) : String.mk s.toList = s := rfl

theorem toList_append (a b : String) : (a ++ b).toList = a.toList ++ b.toList := rfl

theorem splitOnChar_three (s1 s2 s3 : String)
    (h1 : ∀ c ∈ s1.toList, c ≠ '.') (h2 : ∀ c ∈ s2.toList, c ≠ '.')
    (h3 : ∀ c ∈ s3.toList, c ≠ '.') :
    splitOnChar '.' (s1 ++ "." ++ s2 ++ "." ++ s3) = [s1, s2, s3] := by
  unfold splitOnChar
  have hl : (s1 ++ "." ++ s2 ++ "." ++ s3).toList =
      s1.toList ++ '.' :: (s2.toList ++ '.' :: s3.toList) := by
    rw [toList_append, toList_append, toList_append, toList_append]
    simp [List.append_assoc]
  rw [hl]
  rw [splitChars_append_sep '.' s1.toList _ (fun hm => h1 _ hm rfl)]
  rw [splitChars_append_sep '.' s2.toList _ (fun hm => h2 _ hm rfl)]
  rw [splitChars_no_sep '.' s3.toList (fun hm => h3 _ hm rfl)]
  simp [mk_toList]

/-- A string whose characters are all ASCII. -/
def AsciiStr (s : String) : Prop := ∀ c ∈ s.toList, c.toNat < 128

instance (s : String) : Decidable (AsciiStr s) :=
  inferInstanceAs (Decidable (∀ c ∈ s.toList, c.toNat < 128))

theorem textDecode_ascii (s : String) (h : AsciiStr s) :
    textDecode (asciiToUint8Array s) = s := by
  unfold textDecode asciiToUint8Array
  rw [List.map_map]
  have : s.toList.map ((fun b => if b < 128 then Char.ofNat b else Char.ofNat 0xFFFD) ∘
      Char.toNat) = s.toList.map id := by
    apply List.map_congr_left
    intro c hc
    simp only [Function.comp_apply, id_eq, if_pos (h c hc)]
    exact Char.ofNat_toNat c
  rw [this, List.map_id, mk_toList]

theorem ascii_bytes_lt_256 (s : String) (h : AsciiStr s) :
    ∀ b ∈ asciiToUint8Array s, b < 256 := by
  intro b hb
  obtain ⟨c, hc, rfl⟩ := List.mem_map.mp hb
  exact lt_trans (h c hc) (by omega)

/-! ## Concrete instances used by witnesses and counterexamples -/

/-- A stand-in for `crypto.subtle.digest('SHA-1', ·)` honouring its output
contract: 20 bytes, each below 256. -/
def sha1Stub : List Nat → List Nat := fun _ => List.replicate 20 0

/-- A concrete signing key; byte-clamping keeps the signature inside the
`btoa` domain. -/
def skC : SigningKey := { sign := fun m => m.map (· % 256), pubJwk := "other-public-jwk" }

/-- The verification key matching `skC`. -/
def vkC : VerifyKey := fun sig msg => sig == msg.map (· % 256)

/-- An environment whose persisted kid does not match the kid derivable
from the private key held in the secret. -/
def envC5 : WorkerEnv :=
  { keyStorage := some { public := "public-jwk-5", «private» := none, kid := "stored-kid" }
    rsaPrivateKey := some "secret-jwk-5"
    sha1 := sha1Stub
    importPrivateKey := fun _ => some skC
    certs := none
    db := fun _ => none }

/-- An empty environment for exercising `generateKeys`. -/
def envC4 : WorkerEnv :=
  { keyStorage := none
    rsaPrivateKey := none
    sha1 := sha1Stub
    importPrivateKey := fun _ => none
    certs := none
    db := fun _ => none }

/-- A freshly generated key pair for the key-generation counterexample. -/
def kpC4 : KeyPair := { publicJwk := "public-jwk-4", privateJwk := "private-jwk-4" }

/-! ## C2: the decision evaluator -/

/-- C2: for claims carrying `identity.email`, `externalEvaluation` grants
access exactly when the training store maps the derived identity key (the
local part of the email, lower-cased) to the status `completed`, returns
a `false` decision (not an error) when the identity is unknown, and
returns `false` on any other status. -/
theorem externalEvaluation_completed_iff (env : WorkerEnv) (claims identity : Json)
    (email : String)
    (hid : claims.get "identity" = some identity)
    (hemail : identity.get "email" = some (.str email)) :
    (externalEvaluation env claims = .ok true ↔
      env.db (usernameOf email) = some "completed") ∧
    (env.db (usernameOf email) = none → externalEvaluation env claims = .ok false) ∧
    (∀ st, env.db (usernameOf email) = some st → st ≠ "completed" →
      externalEvaluation env claims = .ok false) := by
  simp only [externalEvaluation, hid, hemail]
  refine ⟨?_, ?_, ?_⟩
  · match h : env.db (usernameOf email) with
    | none => simp [h]
    | some st =>
      simp only [h, Except.ok.injEq]
      constructor
      · intro hb
        have : st = "completed" := of_decide_eq_true hb
        rw [this]
      · intro hs
        injection hs with hs
        simp [hs]
  · intro h
    simp [h]
  · intro st h hne
    simp [h, hne]

/-- The evaluator environment of the witness: `alice` has completed the
training, `bob` has only started it. -/
def envC2 : WorkerEnv :=
  { keyStorage := none
    rsaPrivateKey := none
    sha1 := sha1Stub
    importPrivateKey := fun _ => none
    certs := none
    db := fun u => if u = "alice" then some "completed"
      else if u = "bob" then some "started" else none }

/-- Verified claims for `Alice@Example.com`; the mixed case exercises the
lower-casing of the identity key. -/
def claimsC2 : Json :=
  .obj [("identity", .obj [("email", .str "Alice@Example.com")]), ("nonce", .str "n2")]

/-- Witness for C2 at a concrete store: the decision for mixed-case
`Alice@Example.com` is `true` through the lower-cased key `alice`. -/
theorem externalEvaluation_completed_iff_witness :
    externalEvaluation envC2 claimsC2 = .ok true :=
  (externalEvaluation_completed_iff envC2 claimsC2
    (.obj [("email", .str "Alice@Example.com")]) "Alice@Example.com" rfl rfl).1.mpr rfl

/-! ## C4: what key generation persists -/

/-- C4 counterexample: after `generateKeys` runs on a fresh environment,
the stored KV record carries the private JWK, refuting that the stored
record never contains the private half. -/
theorem generateKeys_persists_private_counterexample :
    ((generateKeys envC4 kpC4).1.keyStorage.map (·.«private»)) = some (some "private-jwk-4") ∧
    ((generateKeys envC4 kpC4).1.keyStorage.map (·.«private»)) ≠ some none := by
  exact ⟨rfl, by decide⟩

/-- C4 amended: `generateKeys` persists the public JWK, the private JWK
and the kid together in the durable record. -/
theorem generateKeys_stored_record (env : WorkerEnv) (kp : KeyPair) :
    (generateKeys env kp).1.keyStorage =
      some { public := kp.publicJwk, «private» := some kp.privateJwk,
             kid := generateKID env.sha1 kp.publicJwk } := rfl

/-! ## C5: loading the signing key -/

/-- C5 counterexample: `loadSigningKey` succeeds and returns the persisted
kid together with the private key from the secret even though the kid
derived from that key (40 zeros under the stub digest) differs from the
persisted kid — no `KeyMismatch`-style cross-check exists. -/
theorem loadSigningKey_no_crosscheck_counterexample :
    loadSigningKeyKid envC5 = some "stored-kid" ∧
    loadSigningKeyDerivedKid envC5 = some (String.mk (List.replicate 40 '0')) ∧
    loadSigningKeyDerivedKid envC5 ≠ loadSigningKeyKid envC5 := by
  refine ⟨rfl, rfl, by decide⟩

/-- C5 amended: `loadSigningKey` fails when the persisted key set is
absent, when the secret is absent, and when the secret fails to parse or
import; otherwise it returns the persisted kid paired with the secret's
key unconditionally, with no comparison between the two. -/
theorem loadSigningKey_characterization (env : WorkerEnv) :
    (env.keyStorage = none →
      loadSigningKey env = .error "Error: cannot find signing key") ∧
    (∀ ks, env.keyStorage = some ks → env.rsaPrivateKey = none →
      loadSigningKey env = .error "Error: RSA_PRIVATE_KEY secret not set") ∧
    (∀ ks sec, env.keyStorage = some ks → env.rsaPrivateKey = some sec →
      env.importPrivateKey sec = none →
      loadSigningKey env = .error "Error: invalid RSA_PRIVATE_KEY secret format") ∧
    (∀ ks sec sk, env.keyStorage = some ks → env.rsaPrivateKey = some sec →
      env.importPrivateKey sec = some sk →
      loadSigningKey env = .ok (ks.kid, sk)) := by
  refine ⟨?_, ?_, ?_, ?_⟩
  · intro h; simp [loadSigningKey, h]
  · intro ks h hs; simp [loadSigningKey, h, hs]
  · intro ks sec h hs hi; simp [loadSigningKey, h, hs, hi]
  · intro ks sec sk h hs hi; simp [loadSigningKey, h, hs, hi]

/-- Witness for the C5 characterization: the success branch at the
mismatching environment. -/
theorem loadSigningKey_characterization_witness :
    loadSigningKey envC5 = .ok ("stored-kid", skC) :=
  (loadSigningKey_characterization envC5).2.2.2
    { public := "public-jwk-5", «private» := none, kid := "stored-kid" }
    "secret-jwk-5" skC rfl rfl rfl

/-! ## C9: the key-id derivation -/

/-- Flattened two-digit hex rendering doubles the length. -/
theorem hex_flat_length : ∀ (l : List Nat),
    ((l.map fun b => [Nat.digitChar (b / 16), Nat.digitChar (b % 16)]).flatten).length =
      2 * l.length
  | [] => rfl
  | b :: rest => by
    simp only [List.map_cons, List.flatten_cons, List.length_append, List.length_cons,
      List.length_nil, hex_flat_length rest]
    omega

/-- C9 counterexample: under a digest honouring the SHA-1 output contract,
the generated kid has length 40, not 64 — `substring(0, 64)` cannot
truncate a 40-character hex digest. -/
theorem generateKID_length_counterexample :
    (generateKID sha1Stub "test-public-jwk").length = 40 ∧
    (generateKID sha1Stub "test-public-jwk").length ≠ 64 := by
  exact ⟨rfl, by decide⟩

/-- C9 amended: for every public key, the kid is the full 40-character
lowercase hex rendering of the 20-byte SHA-1 digest of the canonical
public-key JSON; the `substring(0, 64)` truncation is a no-op. -/
theorem generateKID_full_sha1_hex (sha1 : List Nat → List Nat) (publicKey : String)
    (h20 : (sha1 (utf8Encode publicKey)).length = 20)
    (_h256 : ∀ b ∈ sha1 (utf8Encode publicKey), b < 256) :
    (generateKID sha1 publicKey).length = 40 := by
  unfold generateKID
  show (((sha1 (utf8Encode publicKey)).map fun b =>
    [Nat.digitChar (b / 16), Nat.digitChar (b % 16)]).flatten.take 64).length = 40
  rw [List.length_take, hex_flat_length, h20]
  omega

/-- Witness for the C9 amended theorem at the stub digest. -/
theorem generateKID_full_sha1_hex_witness :
    (generateKID sha1Stub "witness-public-jwk").length = 40 :=
  generateKID_full_sha1_hex sha1Stub "witness-public-jwk" rfl
    (by intro b hb; simp [sha1Stub] at hb; omega)

/-! ## C10: the public-key read path -/

/-- C10: when a record is persisted, `loadPublicKey` returns exactly the
stored kid and public JWK (the `GET /keys` body wraps the same value), and
two environments whose records agree on the public JWK and kid — so may
differ only in the private half — produce identical results. -/
theorem loadPublicKey_no_private_leak (env env' : WorkerEnv) (kp kp' : KeyPair)
    (ks ks' : StoredKeys)
    (h : env.keyStorage = some ks) (h' : env'.keyStorage = some ks')
    (hpub : ks.public = ks'.public) (hkid : ks.kid = ks'.kid) :
    (loadPublicKey env kp).2 = { kid := ks.kid, publicJwk := ks.public } ∧
    (loadPublicKey env kp).2 = (loadPublicKey env' kp').2 ∧
    (handleKeysRequest env kp).2 = (200, [(loadPublicKey env kp).2]) := by
  refine ⟨?_, ?_, ?_⟩
  · simp [loadPublicKey, h]
  · simp [loadPublicKey, h, h', hpub, hkid]
  · simp [handleKeysRequest, loadPublicKey, h]

/-- A stored record carrying the private half, for the C10 witness. -/
def ksC10a : StoredKeys :=
  { public := "public-jwk-10", «private» := some "private-jwk-10", kid := "kid-10" }

/-- The same record without the private half. -/
def ksC10b : StoredKeys :=
  { public := "public-jwk-10", «private» := none, kid := "kid-10" }

/-- Environment holding the record with the private half. -/
def envC10a : WorkerEnv := { envC4 with keyStorage := some ksC10a }

/-- Environment holding the record without the private half. -/
def envC10b : WorkerEnv := { envC4 with keyStorage := some ksC10b }

/-- Witness for C10: the two stores differing only in the private field
give identical public-key views. -/
theorem loadPublicKey_no_private_leak_witness :
    (loadPublicKey envC10a kpC4).2 = (loadPublicKey envC10b kpC4).2 :=
  (loadPublicKey_no_private_leak envC10a envC10b kpC4 kpC4 ksC10a ksC10b
    rfl rfl rfl rfl).2.1

/-! ## C1: the orchestration boundary fails closed -/

/-- C1: every error thrown anywhere in the POST pipeline makes the
handler answer HTTP 403 with the error text in the body, and the error
body carries no token at all (so no signed `success:true` payload) and
reports `success: false`. The first conjunct is the universal
propagation; the following ones name each claim-covered error site —
`token.split` throwing on a missing or non-string token field (hoisted
here into `getTokenField`), `verifyToken` throwing, and `signJWT`
throwing on the falsy-claims branch and on the evaluated branch. -/
theorem orchestrator_fail_closed (env : WorkerEnv) (reqBody : Except String Json)
    (now : Int) :
    (∀ e, evalPipeline env reqBody now = .error e →
      handleExternalEvaluationRequest env reqBody now = errorResponse e) ∧
    (∀ body e, reqBody = .ok body → getTokenField body = .error e →
      handleExternalEvaluationRequest env reqBody now = errorResponse e) ∧
    (∀ body token e, reqBody = .ok body → getTokenField body = .ok token →
      verifyToken env token now = .error e →
      handleExternalEvaluationRequest env reqBody now = errorResponse e) ∧
    (∀ body token claims e, reqBody = .ok body → getTokenField body = .ok token →
      verifyToken env token now = .ok claims → claims.truthy = false →
      signJWT env (initResult now) = .error e →
      handleExternalEvaluationRequest env reqBody now = errorResponse e) ∧
    (∀ body token claims granted e, reqBody = .ok body → getTokenField body = .ok token →
      verifyToken env token now = .ok claims → claims.truthy = true →
      externalEvaluation env claims = .ok granted →
      signJWT env (buildEvalResult now claims granted) = .error e →
      handleExternalEvaluationRequest env reqBody now = errorResponse e) ∧
    (∀ e, (errorResponse e).status = 403 ∧
      (errorResponse e).body.get "error" = some (.str e) ∧
      (errorResponse e).body.get "token" = none ∧
      (errorResponse e).body.get "success" = some (.bool false)) := by
  refine ⟨?_, ?_, ?_, ?_, ?_, ?_⟩
  · intro e h
    simp [handleExternalEvaluationRequest, h]
  · intro body e hb ht
    simp [handleExternalEvaluationRequest, evalPipeline, hb, ht]
  · intro body token e hb ht hv
    simp [handleExternalEvaluationRequest, evalPipeline, hb, ht, hv]
  · intro body token claims e hb ht hv htr hs
    simp [handleExternalEvaluationRequest, evalPipeline, hb, ht, hv, htr, hs]
  · intro body token claims granted e hb ht hv htr hev hs
    simp [handleExternalEvaluationRequest, evalPipeline, hb, ht, hv, htr, hev, hs]
  · intro e
    exact ⟨rfl, rfl, rfl, rfl⟩

/-- A request body holding a structurally malformed token. -/
def bodyC1 : Json := .obj [("token", .str "bad")]

/-- Witness for C1: a malformed inbound token makes verification throw and
the handler answer 403 with that error text. -/
theorem orchestrator_fail_closed_witness :
    handleExternalEvaluationRequest envC2 (.ok bodyC1) 100 =
      errorResponse "Error: token must have 3 parts" :=
  (orchestrator_fail_closed envC2 (.ok bodyC1) 100).2.2.1 bodyC1 "bad"
    "Error: token must have 3 parts" rfl rfl rfl

/-! ## C8: the outbound decision payload -/

/-- C8: every decision payload built on the success path has `iat = now`,
`exp = now + 300` (so `exp = iat + 300`), carries the evaluated decision,
and echoes the inbound nonce whenever the inbound claims carry one. -/
theorem buildEvalResult_invariants (now : Int) (claims : Json) (granted : Bool) :
    (buildEvalResult now claims granted).get "iat" = some (.num now) ∧
    (buildEvalResult now claims granted).get "exp" = some (.num (now + 300)) ∧
    (buildEvalResult now claims granted).get "success" = some (.bool granted) ∧
    (∀ v, claims.get "nonce" = some v →
      (buildEvalResult now claims granted).get "nonce" = some v) := by
  cases hn : claims.get "nonce" <;> cases granted <;>
    simp only [buildEvalResult, withSuccess, withNonce, initResult, hn] <;>
    simp [Json.get, Json.set, setAssoc, List.lookup]

/-- Witness for C8 at concrete claims carrying a nonce. -/
theorem buildEvalResult_invariants_witness :
    (buildEvalResult 1000 claimsC2 true).get "nonce" = some (.str "n2") :=
  (buildEvalResult_invariants 1000 claimsC2 true).2.2.2 (.str "n2") rfl

/-! ## C3: verification order and expiry semantics -/

/-- C3: for a parseable token whose verification key resolves, the
signature is checked first — a bad signature reports the signature error
even when the token is also expired; with a valid signature the verifier
fails with the expiry error exactly when `exp < now`; and a token with
`exp = now` is accepted, returning the payload claims. -/
theorem verifyToken_expiry_semantics (env : WorkerEnv) (token : String) (now e : Int)
    (jwt : ParsedJWT) (vk : VerifyKey) (sigBytes : List Nat)
    (hparse : parseJWT token = .ok jwt)
    (hkey : fetchAccessPublicKey env (jwt.header.get "kid") = .ok vk)
    (hsig : base64urlParse jwt.signature = some sigBytes)
    (hexp : jwt.payload.get "exp" = some (.num e)) :
    (vk sigBytes (asciiToUint8Array jwt.to_be_validated) = true →
      (verifyToken env token now = .error "Error: expired token" ↔ e < now)) ∧
    (vk sigBytes (asciiToUint8Array jwt.to_be_validated) = false →
      verifyToken env token now = .error "Error: failed to verify token") ∧
    (vk sigBytes (asciiToUint8Array jwt.to_be_validated) = true → e = now →
      verifyToken env token now = .ok jwt.payload) := by
  refine ⟨?_, ?_, ?_⟩
  · intro hv
    simp only [verifyToken, hparse, hkey, hsig, hv, Bool.not_true, Bool.false_eq_true,
      if_false, expiredBefore, hexp]
    by_cases hlt : e < now <;> simp [hlt]
  · intro hv
    simp [verifyToken, hparse, hkey, hsig, hv]
  · intro hv heq
    simp only [verifyToken, hparse, hkey, hsig, hv, Bool.not_true, Bool.false_eq_true,
      if_false, expiredBefore, hexp]
    simp [heq]

/-! ## C6: no caching on the verification-key path -/

/-- Environment with a reachable certs endpoint for the C6 counterexample. -/
def envC6 : WorkerEnv := { envC4 with certs := some [("k6", vkC)] }

/-- C6 counterexample: a lookup immediately after a successful fetch (well
inside any 300-second window) performs another outbound fetch — the trace
grows from 1 to 2 — because the key-resolution path consults no cache. -/
theorem fetchAccessPublicKey_refetch_counterexample :
    (fetchAccessPublicKeyTraced envC6 (some (.str "k6")) 0).2 = 1 ∧
    (fetchAccessPublicKeyTraced envC6 (some (.str "k6"))
      (fetchAccessPublicKeyTraced envC6 (some (.str "k6")) 0).2).2 = 2 ∧
    (2 : Nat) ≠ 1 ∧
    (fetchAccessPublicKeyTraced envC6 (some (.str "k6")) 0).1.toOption.isSome = true := by
  exact ⟨rfl, rfl, by decide, rfl⟩

/-- C6 amended: every invocation of the verification-key resolution
performs exactly one outbound fetch, returning the pure resolution result;
the cache utility does configure an `access_public_keys` entry with a
300-second TTL, but the resolution path never consults it. -/
theorem fetchAccessPublicKey_always_fetches (env : WorkerEnv) (kid : Option Json)
    (n : Nat) :
    (fetchAccessPublicKeyTraced env kid n).2 = n + 1 ∧
    (fetchAccessPublicKeyTraced env kid n).1 = fetchAccessPublicKey env kid ∧
    CACHE_CONFIG.ACCESS_KEYS = { key := "access_public_keys", ttl := 300 } :=
  ⟨rfl, rfl, rfl⟩

/-! ## C7: the sign/verify round trip -/

/-- C7: signing a payload with the system key pair and verifying the
result against the same pair (the certs endpoint serving the matching
verification key) returns the original payload unchanged, for any current
time not after the payload expiry. The crypto hypotheses are the
RSASSA-PKCS1-v1_5 contract for a matched pair; the JSON hypotheses are
the `JSON.parse`/`JSON.stringify` inverse property at the two serialized
objects. -/
theorem sign_verify_roundtrip (env : WorkerEnv) (payload : Json) (now e : Int)
    (kid : String) (sk : SigningKey) (vk : VerifyKey)
    (hload : loadSigningKey env = .ok (kid, sk))
    (hcert : fetchAccessPublicKey env (some (.str kid)) = .ok vk)
    (hcrypto : ∀ msg, vk (sk.sign msg) msg = true)
    (hsigbytes : ∀ msg, ∀ b ∈ sk.sign msg, b < 256)
    (hH : AsciiStr (jsonStringify (jwtHeader kid)))
    (hP : AsciiStr (jsonStringify payload))
    (hjH : jsonParse (jsonStringify (jwtHeader kid)) = some (jwtHeader kid))
    (hjP : jsonParse (jsonStringify payload) = some payload)
    (hexp : payload.get "exp" = some (.num e))
    (hnow : now ≤ e) :
    ∃ tok, signJWT env payload = .ok tok ∧ verifyToken env tok now = .ok payload := by
  set encH := base64urlStringify (asciiToUint8Array (jsonStringify (jwtHeader kid))) with hencH
  set encP := base64urlStringify (asciiToUint8Array (jsonStringify payload)) with hencP
  set encoded := encH ++ "." ++ encP with hencoded
  set encS := base64urlStringify (sk.sign (asciiToUint8Array encoded)) with hencS
  have hsign : signJWT env payload = .ok (encoded ++ "." ++ encS) := by
    simp only [signJWT, hload]
  refine ⟨encoded ++ "." ++ encS, hsign, ?_⟩
  have hsplit : splitOnChar '.' (encoded ++ "." ++ encS) = [encH, encP, encS] := by
    rw [hencoded]
    exact splitOnChar_three encH encP encS
      (b64stringify_no_dot _) (b64stringify_no_dot _) (b64stringify_no_dot _)
  have hb64H : base64urlParse encH =
      some (asciiToUint8Array (jsonStringify (jwtHeader kid))) :=
    b64_roundtrip _ (ascii_bytes_lt_256 _ hH)
  have hb64P : base64urlParse encP = some (asciiToUint8Array (jsonStringify payload)) :=
    b64_roundtrip _ (ascii_bytes_lt_256 _ hP)
  have hb64S : base64urlParse encS = some (sk.sign (asciiToUint8Array encoded)) :=
    b64_roundtrip _ (hsigbytes _)
  have hparse : parseJWT (encoded ++ "." ++ encS) =
      .ok { to_be_validated := encoded, header := jwtHeader kid,
            payload := payload, signature := encS } := by
    unfold parseJWT
    rw [hsplit]
    simp only [hb64H, textDecode_ascii _ hH, hjH, hb64P, textDecode_ascii _ hP, hjP]
  have hkid : (jwtHeader kid).get "kid" = some (.str kid) := rfl
  unfold verifyToken
  rw [hparse]
  simp only [hkid, hcert, hb64S, hcrypto, Bool.not_true, if_false, Bool.false_eq_true,
    expiredBefore, hexp]
  rw [if_neg]
  simp only [decide_eq_true_eq]
  omega

/-- The signing environment of the C7 witness: the key storage holds the
kid the certs endpoint serves, and the secret imports to the matching
private key. -/
def envC7 : WorkerEnv :=
  { keyStorage := some { public := "pub-7", «private» := none, kid := "kid-7" }
    rsaPrivateKey := some "secret-7"
    sha1 := sha1Stub
    importPrivateKey := fun _ => some skC
    certs := some [("kid-7", vkC)]
    db := fun _ => none }

/-- The payload of the C7 witness. -/
def payloadC7 : Json :=
  .obj [("success", .bool false), ("iat", .num 0), ("exp", .num 100), ("nonce", .str "n-7")]

/-- Witness for C7 at a concrete environment and payload. -/
theorem sign_verify_roundtrip_witness :
    ∃ tok, signJWT envC7 payloadC7 = .ok tok ∧ verifyToken envC7 tok 50 = .ok payloadC7 :=
  sign_verify_roundtrip envC7 payloadC7 50 100 "kid-7" skC vkC rfl rfl
    (fun msg => by simp [vkC, skC])
    (fun msg b hb => by
      simp only [skC, List.mem_map] at hb
      obtain ⟨a, _, rfl⟩ := hb
      omega)
    (by decide) (by decide) (by rfl) (by rfl) rfl (by omega)

/-- The payload of the C3 witness: expiry at epoch second 50. -/
def payloadC3 : Json := .obj [("exp", .num 50), ("nonce", .str "n3")]

/-- The raw signature bytes of the C3 witness token. -/
def sigC3 : List Nat := [1, 2, 3]

/-- A verification key accepting exactly the C3 witness signature. -/
def vkC3 : VerifyKey := fun s _ => s == sigC3

/-- Environment whose certs endpoint serves the C3 witness key. -/
def envC3 : WorkerEnv := { envC4 with certs := some [("k3", vkC3)] }

/-- The compact C3 witness token. -/
def tokenC3 : String :=
  base64urlStringify (asciiToUint8Array (jsonStringify (jwtHeader "k3"))) ++ "." ++
    base64urlStringify (asciiToUint8Array (jsonStringify payloadC3)) ++ "." ++
    base64urlStringify sigC3

/-- The parsed form of the C3 witness token. -/
def jwtC3 : ParsedJWT :=
  { to_be_validated :=
      base64urlStringify (asciiToUint8Array (jsonStringify (jwtHeader "k3"))) ++ "." ++
        base64urlStringify (asciiToUint8Array (jsonStringify payloadC3))
    header := jwtHeader "k3"
    payload := payloadC3
    signature := base64urlStringify sigC3 }

set_option maxRecDepth 8000 in
/-- Witness for C3: the witness token with `exp` equal to the current
time verifies successfully. -/
theorem verifyToken_expiry_semantics_witness :
    verifyToken envC3 tokenC3 50 = .ok payloadC3 :=
  (verifyToken_expiry_semantics envC3 tokenC3 50 50 jwtC3 vkC3 sigC3
    (by rfl) (by rfl) (by rfl) (by rfl)).2.2 (by rfl) rfl
